import Mathlib

/-!
Shallow embedding of the queue-navigation and texture preload/eviction engine
of Image Swipe 3 (`src/ImageSwipeCore.py`, `src/TextureManager.py`,
`src/TextureModel.py`), with theorems checking the specification's claims
about it.

Conventions of the embedding:
* texture tags are modelled as naturals; queue positions and the configured
  sizes (`preloadBuffer`, `imgPerDisplay`, `iterPerAction`) as integers,
  matching Python's unbounded ints;
* Python float arithmetic in the geometry helpers is modelled with exact
  rationals, and Python 3's `round` with round-half-to-even;
* a Python function that can raise is embedded as a function into `Except`;
* the resident set of `TextureManager` is its `_textures` list of tags;
  cache operations additionally return the trace of load/evict operations
  actually performed, so that claims about "no additional loads/evictions"
  are statable.
-/

deriving instance DecidableEq for Except

namespace ImageSwipe

/-- `TextureModel` from `TextureModel.py`: an image queue entry with a source
path, a tag used as the cache identifier, and a display label. -/
structure TextureModel where
  filepath : String
  tag : ℕ
  label : String
deriving DecidableEq

/-- Python `images[k]` for an integer index, totalised with a default entry.
The engine's guards keep every index used in range for `0 ≤ position ≤ len`,
which is the domain on which the theorems below are stated. -/
def imgAt (images : List TextureModel) (k : ℤ) : TextureModel :=
  images.getD k.toNat ⟨"", 0, ""⟩

/-- The tag of the queue entry at integer index `k`. -/
def tagAt (images : List TextureModel) (k : ℤ) : ℕ :=
  (imgAt images k).tag

/-- `ImageSwipeCore._loadImageToCache`: register the image's tag iff it is not
already resident (`if image.tag not in self._textureManager._textures`).
The state is the resident-tag list paired with the trace of loads performed. -/
def loadToCache (st : List ℕ × List ℕ) (img : TextureModel) : List ℕ × List ℕ :=
  if img.tag ∈ st.1 then st else (st.1 ++ [img.tag], st.2 ++ [img.tag])

/-- `ImageSwipeCore._removeImageFromCache`: evict the tag iff it is resident
(`if tag in self._textureManager._textures`). The state is the resident-tag
list paired with the trace of evictions performed. -/
def removeFromCache (st : List ℕ × List ℕ) (t : ℕ) : List ℕ × List ℕ :=
  if t ∈ st.1 then (st.1.erase t, st.2 ++ [t]) else st

/-- One iteration, at loop variable `i`, of the preload loop of
`ImageSwipeCore._updateTextureCache`: the forward load (guarded by
`curImageIndex + i < queueLength`), then the backward load (guarded by
`curImageIndex - i >= 0`), which also records `firstLoadedIndex`. -/
def preloadStep (images : List TextureModel) (pos i : ℤ)
    (acc : (List ℕ × List ℕ) × Option ℤ) : (List ℕ × List ℕ) × Option ℤ :=
  let acc1 : (List ℕ × List ℕ) × Option ℤ :=
    if pos + i < (images.length : ℤ) then
      (loadToCache acc.1 (imgAt images (pos + i)), acc.2)
    else acc
  if 0 ≤ pos - i then
    (loadToCache acc1.1 (imgAt images (pos - i)), some (pos - i))
  else acc1

/-- The preload loop `for i in range(1, preloadBuffer + 1)` of
`_updateTextureCache`, run for `fuel` iterations starting at loop variable
`i`. -/
def preloadFrom (images : List TextureModel) (pos : ℤ) :
    ℤ → ℕ → (List ℕ × List ℕ) × Option ℤ → (List ℕ × List ℕ) × Option ℤ
  | _, 0, acc => acc
  | i, fuel + 1, acc => preloadFrom images pos (i + 1) fuel (preloadStep images pos i acc)

/-- The eviction loop `for i in range(0, firstLoadedIndex)` of
`_updateTextureCache`, run for `fuel` iterations starting at index `k`. -/
def evictFrom (images : List TextureModel) :
    ℤ → ℕ → List ℕ × List ℕ → List ℕ × List ℕ
  | _, 0, st => st
  | k, fuel + 1, st => evictFrom images (k + 1) fuel (removeFromCache st (tagAt images k))

/-- `ImageSwipeCore._updateTextureCache` acting on the resident-tag list
`cache`: load the current image when in range, run the preload loop in both
directions recording `firstLoadedIndex`, then, when `firstLoadedIndex` exists
and is positive, evict every queue image strictly before it. Returns the new
resident list, the trace of loads performed, and the trace of evictions
performed. -/
def updateTextureCache (images : List TextureModel) (pos buffer : ℤ)
    (cache : List ℕ) : List ℕ × List ℕ × List ℕ :=
  let afterCur : List ℕ × List ℕ :=
    if pos < (images.length : ℤ) then loadToCache (cache, []) (imgAt images pos)
    else (cache, [])
  let looped := preloadFrom images pos 1 buffer.toNat (afterCur, none)
  match looped.2 with
  | some fLI =>
    if 0 < fLI then
      let ev := evictFrom images 0 fLI.toNat (looped.1.1, [])
      (ev.1, looped.1.2, ev.2)
    else (looped.1.1, looped.1.2, [])
  | none => (looped.1.1, looped.1.2, [])

/-- The navigation-relevant state of `ImageSwipeCore`: current queue index,
image queue, the three configured sizes, the texture manager's resident-tag
list (`none` before `display()` constructs the manager), and the
queue-started flag. -/
structure CoreState where
  curImageIndex : ℤ
  images : List TextureModel
  preloadBuffer : ℤ
  imgPerDisplay : ℤ
  iterPerAction : ℤ
  textureManager : Option (List ℕ)
  queueStarted : Bool
deriving DecidableEq

/-- The Python exceptions relevant to the embedded code paths. -/
inductive PyError
  | valueError
  | decodeError
  | recursionError
deriving DecidableEq

/-- What a navigation call did on the display side: presented the current
slice, triggered the queue-complete handler, or returned after doing
nothing (the early return of `showPrevImage`). -/
inductive NavEvent
  | presented
  | queueComplete
  | ignored
deriving DecidableEq

/-- Argument normalisation of `ImageSwipeCore.__init__`: `imgPerDisplay` and
`iterPerAction` are silently raised to 1 when below 1 (`if imgPerDisplay < 1:
imgPerDisplay = 1`, and likewise for `iterPerAction`); the queue starts empty
at index 0 with no texture manager. -/
def coreInit (preloadBuffer imgPerDisplay iterPerAction : ℤ) : CoreState :=
  { curImageIndex := 0
    images := []
    preloadBuffer := preloadBuffer
    imgPerDisplay := if imgPerDisplay < 1 then 1 else imgPerDisplay
    iterPerAction := if iterPerAction < 1 then 1 else iterPerAction
    textureManager := none
    queueStarted := false }

/-- The tag tuple built by `ImageSwipeCore.presentCurrentImage` from the
Python slice `self._images[self._curImageIndex : self._curImageIndex +
self.imgPerDisplay]` (for a non-negative current index). -/
def presentedTags (st : CoreState) : List ℕ :=
  ((st.images.drop st.curImageIndex.toNat).take st.imgPerDisplay.toNat).map
    TextureModel.tag

/-- `ImageSwipeCore.presentCurrentImage`: present the slice when it is
non-empty, otherwise trigger the queue-complete handler. -/
def presentCurrentImage (st : CoreState) : NavEvent :=
  if presentedTags st = [] then NavEvent.queueComplete else NavEvent.presented

/-- `ImageSwipeCore.showNextImage`: when `curImageIndex + iterPerAction`
exceeds the queue length, trigger the queue-complete handler and return
without moving; otherwise step forward, resync the texture cache (which
raises `ValueError` when the texture manager is absent), and present. -/
def showNextImage (st : CoreState) : Except PyError (CoreState × NavEvent) :=
  if (st.images.length : ℤ) < st.curImageIndex + st.iterPerAction then
    Except.ok (st, NavEvent.queueComplete)
  else
    match st.textureManager with
    | none => Except.error PyError.valueError
    | some cache =>
      let pos := st.curImageIndex + st.iterPerAction
      let upd := updateTextureCache st.images pos st.preloadBuffer cache
      let st' := { st with curImageIndex := pos, textureManager := some upd.1 }
      Except.ok (st', presentCurrentImage st')

/-- `ImageSwipeCore.showPrevImage`: when `curImageIndex - iterPerAction` is
negative, return without doing anything; otherwise step backward, resync the
texture cache, and present. -/
def showPrevImage (st : CoreState) : Except PyError (CoreState × NavEvent) :=
  if st.curImageIndex - st.iterPerAction < 0 then
    Except.ok (st, NavEvent.ignored)
  else
    match st.textureManager with
    | none => Except.error PyError.valueError
    | some cache =>
      let pos := st.curImageIndex - st.iterPerAction
      let upd := updateTextureCache st.images pos st.preloadBuffer cache
      let st' := { st with curImageIndex := pos, textureManager := some upd.1 }
      Except.ok (st', presentCurrentImage st')

/-- `ImageSwipeCore.setImageQueue`: replace the queue wholesale, touching
no other state. -/
def setImageQueue (st : CoreState) (imgs : List TextureModel) : CoreState :=
  { st with images := imgs }

/-- `ImageSwipeCore.startQueue`: reset the index to 0, resync the texture
cache, present the current image, and mark the queue started. -/
def startQueue (st : CoreState) : Except PyError (CoreState × NavEvent) :=
  match st.textureManager with
  | none => Except.error PyError.valueError
  | some cache =>
    let upd := updateTextureCache st.images 0 st.preloadBuffer cache
    let st' := { st with curImageIndex := 0, textureManager := some upd.1,
                         queueStarted := true }
    Except.ok (st', presentCurrentImage st')

/-- The state reached by `startQueue` from `st` when the texture manager holds
the resident list `cache` (a convenience abbreviation for the theorems). -/
def startQueueState (st : CoreState) (cache : List ℕ) : CoreState :=
  { st with curImageIndex := 0,
            textureManager := some (updateTextureCache st.images 0 st.preloadBuffer cache).1,
            queueStarted := true }

/-- Python 3's `round` on an exact rational: round to the nearest integer,
ties to the even integer. -/
def pythonRound (q : ℚ) : ℤ :=
  if q - ⌊q⌋ < 1/2 then ⌊q⌋
  else if 1/2 < q - ⌊q⌋ then ⌊q⌋ + 1
  else if ⌊q⌋ % 2 = 0 then ⌊q⌋ else ⌊q⌋ + 1

/-- `TextureManager.calcBestFitSize` over exact rationals: the fit (or fill)
resize ratio `min (max) of containerSize/contentSize per axis`, the final
size with each axis scaled by that ratio and rounded, and the negative
symmetric paste offset for each axis on which the scaled content still
exceeds the container. -/
def calcBestFitSize (contentSize containerSize : ℤ × ℤ) (shouldFit : Bool) :
    (ℤ × ℤ) × (ℤ × ℤ) :=
  let ratio : ℚ :=
    if shouldFit then
      min ((containerSize.1 : ℚ) / (contentSize.1 : ℚ))
        ((containerSize.2 : ℚ) / (contentSize.2 : ℚ))
    else
      max ((containerSize.1 : ℚ) / (contentSize.1 : ℚ))
        ((containerSize.2 : ℚ) / (contentSize.2 : ℚ))
  let finalW : ℤ := pythonRound (contentSize.1 * ratio)
  let finalH : ℤ := pythonRound (contentSize.2 * ratio)
  let pasteOffsetX : ℤ :=
    if containerSize.1 < finalW then
      -(pythonRound (((finalW - containerSize.1 : ℤ) : ℚ) / 2))
    else 0
  let pasteOffsetY : ℤ :=
    if containerSize.2 < finalH then
      -(pythonRound (((finalH - containerSize.2 : ℤ) : ℚ) / 2))
    else 0
  ((finalW, finalH), (pasteOffsetX, pasteOffsetY))

/-- `TextureManager.MAX_TEXTURE_SIZE = (1080, 1080)`. -/
def MAX_TEXTURE_SIZE : ℤ × ℤ := (1080, 1080)

/-- The size stored by `TextureManager._loadImageWithMaxSize`: the source
image is resized to `calcBestFitSize(pilImage.size, maxSize, True)` and the
resized dimensions are recorded. -/
def loadImageStoredSize (srcSize maxSize : ℤ × ℤ) : ℤ × ℤ :=
  (calcBestFitSize srcSize maxSize true).1

/-- The horizontal centering indent `(parentSize[0] - fitSize[0]) // 2`
computed in `ImageSwipeCore.presentImage` (Python floor division). -/
def presentLeftPad (parentSize fitSize : ℤ × ℤ) : ℤ :=
  Int.fdiv (parentSize.1 - fitSize.1) 2

/-- What the filesystem and image decoder yield at a path: nothing
(`os.path.exists` is false), undecodable bytes (PIL raises), or a decodable
image with its intrinsic size. -/
inductive FileContent
  | missing
  | corrupt
  | image (width height : ℤ)
deriving DecidableEq

/-- `TextureManager._PATH_IMAGE_ERROR`, the built-in placeholder asset. -/
def PATH_IMAGE_ERROR : String := "assets/error.png"

/-- The bookkeeping of `TextureManager`: the `_textures` tag list, the
`_sizes` record, and the diagnostics printed so far. -/
structure TexState where
  textures : List ℕ
  sizes : List (ℕ × (ℤ × ℤ))
  diagnostics : List String
deriving DecidableEq

/-- The body of `TextureManager.registerTexture` once the path is known to
exist: decode the image — with no handler, so undecodable data raises — scale
it within `maxRez` when one is given, register the static texture, and record
the tag and stored size. (A missing path cannot reach this body; the
`.missing` case stands for the unbounded self-recursion the source would
enter if the error image itself were missing.) -/
def registerExisting (fs : String → FileContent) (st : TexState)
    (path : String) (tag : ℕ) (maxRez : Option (ℤ × ℤ)) :
    Except PyError TexState :=
  match fs path with
  | FileContent.missing => Except.error PyError.recursionError
  | FileContent.corrupt => Except.error PyError.decodeError
  | FileContent.image w h =>
    let size := match maxRez with
      | some m => loadImageStoredSize (w, h) m
      | none => (w, h)
    Except.ok { st with textures := st.textures ++ [tag],
                        sizes := st.sizes ++ [(tag, size)] }

/-- `TextureManager.registerTexture`: when the path does not exist, register
the built-in error image under the same tag (the recursive call
`self.registerTexture(self._PATH_IMAGE_ERROR, tag)`, which uses the default
`maxRez = MAX_TEXTURE_SIZE`), then print the "Image not found" diagnostic and
return; otherwise load and register the image at `path`. -/
def registerTexture (fs : String → FileContent) (st : TexState)
    (path : String) (tag : ℕ) (maxRez : Option (ℤ × ℤ)) :
    Except PyError TexState :=
  if fs path = FileContent.missing then
    match registerExisting fs st PATH_IMAGE_ERROR tag (some MAX_TEXTURE_SIZE) with
    | Except.error e => Except.error e
    | Except.ok st' =>
      Except.ok { st' with
        diagnostics := st'.diagnostics ++ ["Image not found at: " ++ path] }
  else registerExisting fs st path tag maxRez

/-- A user navigation action: advance (`showNextImage`) or retreat
(`showPrevImage`). -/
inductive NavAction
  | next
  | prev
deriving DecidableEq

/-- One navigation call, keeping the resulting state. -/
def navStep (st : CoreState) : NavAction → Except PyError CoreState
  | NavAction.next => (showNextImage st).map Prod.fst
  | NavAction.prev => (showPrevImage st).map Prod.fst

/-- A sequence of navigation calls. -/
def navRun : CoreState → List NavAction → Except PyError CoreState
  | st, [] => Except.ok st
  | st, a :: rest =>
    match navStep st a with
    | Except.error e => Except.error e
    | Except.ok st' => navRun st' rest

/-! Concrete fixtures used by counterexamples and witnesses. -/

/-- A five-image queue with tags 1–5. -/
def c3Images : List TextureModel :=
  [⟨"1.png", 1, "1"⟩, ⟨"2.png", 2, "2"⟩, ⟨"3.png", 3, "3"⟩,
   ⟨"4.png", 4, "4"⟩, ⟨"5.png", 5, "5"⟩]

/-- A started core over `c3Images` with the default configuration
(`preloadBuffer = 3`, `imgPerDisplay = 1`, `iterPerAction = 1`), at position
`pos` with resident list `cache`. -/
def c3State (pos : ℤ) (cache : List ℕ) : CoreState :=
  { curImageIndex := pos, images := c3Images, preloadBuffer := 3,
    imgPerDisplay := 1, iterPerAction := 1, textureManager := some cache,
    queueStarted := true }

/-- A started core over `c3Images` with `preloadBuffer = 1`, at position 0,
with exactly the preload window `{1, 2}` resident (the state `startQueue`
produces there from an empty cache). -/
def c4State : CoreState :=
  { curImageIndex := 0, images := c3Images, preloadBuffer := 1,
    imgPerDisplay := 1, iterPerAction := 1, textureManager := some [1, 2],
    queueStarted := true }

/-- A four-image queue with tags 10, 20, 30, 40. -/
def c1Images : List TextureModel :=
  [⟨"a.png", 10, "a"⟩, ⟨"b.png", 20, "b"⟩, ⟨"c.png", 30, "c"⟩,
   ⟨"d.png", 40, "d"⟩]

/-- A single-image queue with tag 1, and a disjoint replacement with tag 2. -/
def c6OldImages : List TextureModel := [⟨"old.png", 1, "old"⟩]

/-- The replacement queue for the queue-replacement scenario. -/
def c6NewImages : List TextureModel := [⟨"new.png", 2, "new"⟩]

/-- A started core over `c6OldImages` with its tag 1 resident. -/
def c6State : CoreState :=
  { curImageIndex := 0, images := c6OldImages, preloadBuffer := 3,
    imgPerDisplay := 1, iterPerAction := 1, textureManager := some [1],
    queueStarted := true }

/-- A filesystem on which `"item.png"` is missing and every other path (in
particular the error image) decodes to an 8×6 image. -/
def c8MissingFs : String → FileContent :=
  fun p => if p = "item.png" then FileContent.missing else FileContent.image 8 6

/-- A filesystem on which every path exists but holds undecodable bytes. -/
def c8CorruptFs : String → FileContent := fun _ => FileContent.corrupt

/-! Basic reduction lemmas. -/

/-- `Except.bind` on a success. -/
theorem except_ok_bind {ε α β : Type} (a : α) (f : α → Except ε β) :
    (Except.ok a : Except ε α).bind f = f a := rfl

/-- `Except.map` on a success. -/
theorem except_ok_map {ε α β : Type} (a : α) (f : α → β) :
    Except.map f (Except.ok a : Except ε α) = Except.ok (f a) := rfl

/-! Claim theorems. -/

/-- C10: `ImageSwipeCore.__init__` silently clamps `imgPerDisplay` and
`iterPerAction` up to 1 when they are below 1 (zero and negatives included),
and keeps values ≥ 1 as given, so page size and step size are always
positive. -/
theorem coreInit_clamps_to_one (pb ipd ipa : ℤ) :
    1 ≤ (coreInit pb ipd ipa).imgPerDisplay ∧
    1 ≤ (coreInit pb ipd ipa).iterPerAction ∧
    (coreInit pb ipd ipa).imgPerDisplay = (if ipd < 1 then 1 else ipd) ∧
    (coreInit pb ipd ipa).iterPerAction = (if ipa < 1 then 1 else ipa) := by
  refine ⟨?_, ?_, rfl, rfl⟩ <;> simp only [coreInit] <;> split <;> omega

/-- C7 counterexample: `calcBestFitSize((100, 100), (50, 30), True)` returns
the paste offset `(0, 0)`, not the claimed `(10, 0)`. -/
theorem calcBestFitSize_offset_counterexample :
    calcBestFitSize (100, 100) (50, 30) true ≠ ((30, 30), (10, 0)) := by
  have h : calcBestFitSize (100, 100) (50, 30) true = ((30, 30), (0, 0)) := by
    norm_num [calcBestFitSize, pythonRound]
  rw [h]
  decide

/-- C7 (amended): `calcBestFitSize` maps content `(1000, 500)` in container
`(400, 400)` to `((400, 200), (0, 0))` and content `(100, 100)` in container
`(50, 30)` to `((30, 30), (0, 0))`; the horizontal centering amount 10 of the
second case is the indent `(50 - 30) // 2` computed by
`ImageSwipeCore.presentImage`, not the offset returned by
`calcBestFitSize`. -/
theorem calcBestFitSize_concrete_geometry :
    calcBestFitSize (1000, 500) (400, 400) true = ((400, 200), (0, 0)) ∧
    calcBestFitSize (100, 100) (50, 30) true = ((30, 30), (0, 0)) ∧
    presentLeftPad (50, 30) (30, 30) = 10 := by
  refine ⟨?_, ?_, by decide⟩ <;> norm_num [calcBestFitSize, pythonRound]

/-- C2 counterexample: a 3×7 source is stored at 463×1080 under the default
ceiling — strictly larger than the source (the loader upscales small images
to the ceiling), and with the source aspect ratio 3 : 7 not exactly preserved
(463·7 ≠ 1080·3). -/
theorem loadImageStoredSize_upscales_counterexample :
    loadImageStoredSize (3, 7) MAX_TEXTURE_SIZE = (463, 1080) ∧
    3 < (463 : ℤ) ∧ (463 : ℤ) * 7 ≠ (1080 : ℤ) * 3 := by
  refine ⟨?_, by norm_num, by norm_num⟩
  norm_num [loadImageStoredSize, MAX_TEXTURE_SIZE, calcBestFitSize, pythonRound]

/-- C3 counterexample: from the exhausted position 5 (queue length 5, step
1), a further `showNextImage` call does not raise — it returns normally,
leaves the position at 5, and triggers the queue-complete handler. -/
theorem showNextImage_exhausted_counterexample :
    showNextImage (c3State 5 [3, 4, 5]) =
      Except.ok (c3State 5 [3, 4, 5], NavEvent.queueComplete) ∧
    (showNextImage (c3State 5 [3, 4, 5])).isOk = true := by
  decide

/-- C3 (amended): with length 5 and step 1, one advance from position 4 moves
to position 5 (exhausted: the now-empty slice triggers the queue-complete
handler), and a further advance returns normally with the position still at
5, again invoking the queue-complete handler rather than raising. -/
theorem showNextImage_exhaustion_boundary :
    showNextImage (c3State 4 [2, 3, 4, 5]) =
      Except.ok (c3State 5 [3, 4, 5], NavEvent.queueComplete) ∧
    showNextImage (c3State 5 [3, 4, 5]) =
      Except.ok (c3State 5 [3, 4, 5], NavEvent.queueComplete) := by
  decide

/-- C4 counterexample: from `c4State` (position 0, step 1, radius 1, resident
`{1, 2}`), advance then retreat returns the position to 0, but the resident
set has grown: tag 3, preloaded during the advance, is still resident
afterwards, so the resident set does not return to its prior value. -/
theorem advance_retreat_resident_counterexample :
    navRun c4State [NavAction.next, NavAction.prev] =
      Except.ok { c4State with textureManager := some [1, 2, 3] } ∧
    (3 ∈ ([1, 2, 3] : List ℕ)) ∧ (3 ∉ ([1, 2] : List ℕ)) ∧
    c4State.textureManager = some [1, 2] := by
  decide

/-- C4 (amended): whenever an advance actually moves (position + step ≤
length) from a ready state with a non-negative position, `showNextImage`
followed by `showPrevImage` with the same step returns the position to its
prior value; the resident set, however, need not return to its prior value
(see the counterexample). -/
theorem advance_retreat_position_roundtrip
    (st : CoreState) (cache : List ℕ)
    (hm : st.textureManager = some cache)
    (h0 : 0 ≤ st.curImageIndex)
    (hmv : st.curImageIndex + st.iterPerAction ≤ (st.images.length : ℤ)) :
    ((showNextImage st).bind fun p => (showPrevImage p.1).map fun q => q.1.curImageIndex)
      = Except.ok st.curImageIndex := by
  have h1 : ¬ ((st.images.length : ℤ) < st.curImageIndex + st.iterPerAction) := by omega
  have h2 : ¬ (st.curImageIndex + st.iterPerAction - st.iterPerAction < 0) := by omega
  simp only [showNextImage, showPrevImage, hm, if_neg h1, except_ok_bind]
  simp only [if_neg h2, except_ok_map]
  congr 1
  omega

/-- C4 witness: the round trip at `c4State`. -/
theorem advance_retreat_position_roundtrip_witness :
    c4State.textureManager = some [1, 2] ∧ 0 ≤ c4State.curImageIndex ∧
    c4State.curImageIndex + c4State.iterPerAction ≤ (c4State.images.length : ℤ) ∧
    ((showNextImage c4State).bind fun p => (showPrevImage p.1).map fun q => q.1.curImageIndex)
      = Except.ok c4State.curImageIndex :=
  ⟨rfl, by decide, by decide,
   advance_retreat_position_roundtrip c4State [1, 2] rfl (by decide) (by decide)⟩

/-- C6 counterexample: replacing the single-item queue (tag 1, resident) with
a disjoint queue (tag 2) and calling `startQueue` leaves the old entry 1
resident: the resync at position 0 performs no evictions, so a cache entry
from the old Sequence remains. -/
theorem replace_start_old_entry_counterexample :
    startQueue (setImageQueue c6State c6NewImages) =
      Except.ok ({ c6State with images := c6NewImages
                                textureManager := some [1, 2] }, NavEvent.presented) ∧
    (1 ∈ ([1, 2] : List ℕ)) := by
  decide

/-- C8 counterexample: an item whose source exists but holds undecodable
bytes makes `registerTexture` raise the decode error — there is no handler;
the placeholder substitution happens only for missing paths, so the claim
"never raises" is false for corrupt sources. -/
theorem registerTexture_corrupt_counterexample :
    registerTexture c8CorruptFs ⟨[], [], []⟩ "item.png" 7 (some MAX_TEXTURE_SIZE) =
      Except.error PyError.decodeError := by
  rfl

/-- C8 (amended): for an item whose source is missing, `registerTexture`
never raises: it registers the built-in error image under the item's tag
(scaled under the default ceiling), records the "Image not found" diagnostic,
and the tag is resident afterwards. Decode failures of existing sources are
not handled and propagate. -/
theorem registerTexture_missing_substitutes_placeholder
    (fs : String → FileContent) (st : TexState) (path : String) (tag : ℕ)
    (maxRez : Option (ℤ × ℤ)) (w h : ℤ)
    (hmiss : fs path = FileContent.missing)
    (herr : fs PATH_IMAGE_ERROR = FileContent.image w h) :
    registerTexture fs st path tag maxRez =
      Except.ok { textures := st.textures ++ [tag],
                  sizes := st.sizes ++ [(tag, loadImageStoredSize (w, h) MAX_TEXTURE_SIZE)],
                  diagnostics := st.diagnostics ++ ["Image not found at: " ++ path] } ∧
    tag ∈ st.textures ++ [tag] := by
  constructor
  · simp [registerTexture, hmiss, registerExisting, herr]
  · simp

/-- C8 witness: the amended claim at the concrete missing item `"item.png"`
over `c8MissingFs`. -/
theorem registerTexture_missing_substitutes_placeholder_witness :
    c8MissingFs "item.png" = FileContent.missing ∧
    c8MissingFs PATH_IMAGE_ERROR = FileContent.image 8 6 ∧
    (registerTexture c8MissingFs ⟨[9], [], []⟩ "item.png" 7 (some MAX_TEXTURE_SIZE) =
      Except.ok { textures := [9] ++ [7],
                  sizes := [] ++ [(7, loadImageStoredSize (8, 6) MAX_TEXTURE_SIZE)],
                  diagnostics := [] ++ ["Image not found at: " ++ "item.png"] } ∧
      7 ∈ [9] ++ [7]) :=
  ⟨by decide, by decide,
   registerTexture_missing_substitutes_placeholder c8MissingFs ⟨[9], [], []⟩
     "item.png" 7 (some MAX_TEXTURE_SIZE) 8 6 (by decide) (by decide)⟩

/-- Auxiliary: one successful navigation call keeps `0 ≤ position ≤ length`
(for step size ≥ 1) and changes neither the queue nor the step size. -/
theorem navStep_preserves (st : CoreState) (a : NavAction) (st' : CoreState)
    (hs : 1 ≤ st.iterPerAction)
    (hinv : 0 ≤ st.curImageIndex ∧ st.curImageIndex ≤ (st.images.length : ℤ))
    (h : navStep st a = Except.ok st') :
    (0 ≤ st'.curImageIndex ∧ st'.curImageIndex ≤ (st'.images.length : ℤ)) ∧
    st'.images = st.images ∧ st'.iterPerAction = st.iterPerAction := by
  cases a with
  | next =>
    simp only [navStep] at h
    unfold showNextImage at h
    split at h
    · rw [except_ok_map] at h
      injection h with h'
      subst h'
      exact ⟨hinv, rfl, rfl⟩
    · rename_i hg
      cases hm : st.textureManager with
      | none => rw [hm] at h; cases h
      | some cache =>
        rw [hm] at h
        rw [except_ok_map] at h
        injection h with h'
        subst h'
        refine ⟨⟨by simp; omega, by simp; omega⟩, rfl, rfl⟩
  | prev =>
    simp only [navStep] at h
    unfold showPrevImage at h
    split at h
    · rw [except_ok_map] at h
      injection h with h'
      subst h'
      exact ⟨hinv, rfl, rfl⟩
    · rename_i hg
      cases hm : st.textureManager with
      | none => rw [hm] at h; cases h
      | some cache =>
        rw [hm] at h
        rw [except_ok_map] at h
        injection h with h'
        subst h'
        refine ⟨⟨by simp; omega, by simp; omega⟩, rfl, rfl⟩

/-- Auxiliary: a successful run of navigation calls preserves the position
invariant. -/
theorem navRun_invariant (acts : List NavAction) (st st' : CoreState)
    (hs : 1 ≤ st.iterPerAction)
    (hinv : 0 ≤ st.curImageIndex ∧ st.curImageIndex ≤ (st.images.length : ℤ))
    (h : navRun st acts = Except.ok st') :
    0 ≤ st'.curImageIndex ∧ st'.curImageIndex ≤ (st'.images.length : ℤ) := by
  induction acts generalizing st with
  | nil =>
    simp only [navRun] at h
    injection h with h'
    subst h'
    exact hinv
  | cons a rest ih =>
    simp only [navRun] at h
    cases hstep : navStep st a with
    | error e => rw [hstep] at h; cases h
    | ok st1 =>
      rw [hstep] at h
      obtain ⟨hinv1, himg, hiter⟩ := navStep_preserves st a st1 hs hinv hstep
      exact ih st1 (hiter ▸ hs) hinv1 h

/-- C9: from any state reached by `startQueue` (with step size ≥ 1, which
`ImageSwipeCore.__init__` guarantees), every successful sequence of
`showNextImage` / `showPrevImage` calls keeps the position within
`0 ≤ position ≤ len(images)`: it never goes negative and never exceeds the
queue length. -/
theorem navigation_position_invariant
    (st0 st1 st' : CoreState) (ev : NavEvent) (acts : List NavAction)
    (hs : 1 ≤ st0.iterPerAction)
    (hstart : startQueue st0 = Except.ok (st1, ev))
    (hrun : navRun st1 acts = Except.ok st') :
    0 ≤ st'.curImageIndex ∧ st'.curImageIndex ≤ (st'.images.length : ℤ) := by
  unfold startQueue at hstart
  cases hm : st0.textureManager with
  | none => rw [hm] at hstart; cases hstart
  | some cache =>
    rw [hm] at hstart
    injection hstart with h'
    have hst1 : st1 = { st0 with
        curImageIndex := 0
        textureManager := some (updateTextureCache st0.images 0 st0.preloadBuffer cache).1
        queueStarted := true } := by
      have := congrArg Prod.fst h'
      exact this.symm
    subst hst1
    refine navRun_invariant acts _ st' ?_ ?_ hrun
    · simpa using hs
    · exact ⟨by simp, by simp⟩

/-- C9 witness: starting the default five-image queue and running
advance, advance, retreat lands at position 1 with the invariant intact. -/
theorem navigation_position_invariant_witness :
    1 ≤ (c3State 0 []).iterPerAction ∧
    (0 ≤ (c3State 1 [1, 2, 3, 4, 5]).curImageIndex ∧
      (c3State 1 [1, 2, 3, 4, 5]).curImageIndex ≤
        ((c3State 1 [1, 2, 3, 4, 5]).images.length : ℤ)) :=
  ⟨by decide,
   navigation_position_invariant (c3State 0 []) (c3State 0 [1, 2, 3, 4])
     (c3State 1 [1, 2, 3, 4, 5]) NavEvent.presented
     [NavAction.next, NavAction.next, NavAction.prev]
     (by decide) (by decide) (by decide)⟩

/-- Auxiliary: `pythonRound` of an integer is that integer. -/
theorem pythonRound_intCast (n : ℤ) : pythonRound (n : ℚ) = n := by
  unfold pythonRound
  rw [Int.floor_intCast]
  norm_num

/-- Auxiliary: `pythonRound` never rounds past an integer upper bound. -/
theorem pythonRound_le {q : ℚ} {n : ℤ} (h : q ≤ (n : ℚ)) : pythonRound q ≤ n := by
  have hfl : ⌊q⌋ ≤ n := by
    have h1 := Int.floor_le_floor h
    rwa [Int.floor_intCast] at h1
  have hmid : ¬(q - (⌊q⌋ : ℚ) < 1/2) → ⌊q⌋ + 1 ≤ n := by
    intro ha
    have h12 : (1/2 : ℚ) ≤ q - (⌊q⌋ : ℚ) := not_lt.mp ha
    by_contra hcon
    have heq : ⌊q⌋ = n := by omega
    rw [heq] at h12
    linarith
  unfold pythonRound
  split_ifs with ha hb hc
  · exact hfl
  · exact hmid ha
  · exact hfl
  · exact hmid ha

/-- Auxiliary: `pythonRound` moves its argument by at most one half. -/
theorem abs_pythonRound_sub (q : ℚ) : |(pythonRound q : ℚ) - q| ≤ 1/2 := by
  have h1 : (⌊q⌋ : ℚ) ≤ q := Int.floor_le q
  have h2 : q < (⌊q⌋ : ℚ) + 1 := Int.lt_floor_add_one q
  unfold pythonRound
  split_ifs with ha hb hc <;> rw [abs_le] <;> constructor <;> push_cast <;> linarith

/-- C2 (amended): under the default ceiling, every source image with positive
dimensions is stored scaled exactly to the 1080×1080 ceiling: both stored
axes are at most 1080, at least one axis equals 1080 (so small sources are
upscaled, contrary to the original claim — see the counterexample), and the
source aspect ratio is preserved up to the rounding of each axis
(`|2·(W·h - H·w)| ≤ w + h`). -/
theorem loadImageStoredSize_fits_ceiling (w h : ℤ) (hw : 1 ≤ w) (hh : 1 ≤ h) :
    (loadImageStoredSize (w, h) MAX_TEXTURE_SIZE).1 ≤ 1080 ∧
    (loadImageStoredSize (w, h) MAX_TEXTURE_SIZE).2 ≤ 1080 ∧
    ((loadImageStoredSize (w, h) MAX_TEXTURE_SIZE).1 = 1080 ∨
      (loadImageStoredSize (w, h) MAX_TEXTURE_SIZE).2 = 1080) ∧
    |2 * ((loadImageStoredSize (w, h) MAX_TEXTURE_SIZE).1 * h -
          (loadImageStoredSize (w, h) MAX_TEXTURE_SIZE).2 * w)| ≤ w + h := by
  have hw0 : (0 : ℚ) < (w : ℚ) := by exact_mod_cast (by omega : (0:ℤ) < w)
  have hh0 : (0 : ℚ) < (h : ℚ) := by exact_mod_cast (by omega : (0:ℤ) < h)
  set ρ : ℚ := min ((1080 : ℚ) / (w : ℚ)) ((1080 : ℚ) / (h : ℚ)) with hρ
  have hfit : loadImageStoredSize (w, h) MAX_TEXTURE_SIZE =
      (pythonRound ((w : ℚ) * ρ), pythonRound ((h : ℚ) * ρ)) := by
    simp only [loadImageStoredSize, MAX_TEXTURE_SIZE, calcBestFitSize, hρ]
    norm_num
  have hwc : (w : ℚ) * ((1080 : ℚ) / (w : ℚ)) = 1080 := by field_simp
  have hhc : (h : ℚ) * ((1080 : ℚ) / (h : ℚ)) = 1080 := by field_simp
  have hwρ : (w : ℚ) * ρ ≤ ((1080 : ℤ) : ℚ) := by
    have hle : ρ ≤ (1080 : ℚ) / (w : ℚ) := min_le_left _ _
    have := mul_le_mul_of_nonneg_left hle (le_of_lt hw0)
    rw [hwc] at this
    push_cast
    exact this
  have hhρ : (h : ℚ) * ρ ≤ ((1080 : ℤ) : ℚ) := by
    have hle : ρ ≤ (1080 : ℚ) / (h : ℚ) := min_le_right _ _
    have := mul_le_mul_of_nonneg_left hle (le_of_lt hh0)
    rw [hhc] at this
    push_cast
    exact this
  have hW : pythonRound ((w : ℚ) * ρ) ≤ 1080 := pythonRound_le hwρ
  have hH : pythonRound ((h : ℚ) * ρ) ≤ 1080 := pythonRound_le hhρ
  have hone : pythonRound ((w : ℚ) * ρ) = 1080 ∨ pythonRound ((h : ℚ) * ρ) = 1080 := by
    rcases min_choice ((1080 : ℚ) / (w : ℚ)) ((1080 : ℚ) / (h : ℚ)) with hmin | hmin
    · left
      rw [hρ, hmin, hwc]
      have : ((1080 : ℚ)) = ((1080 : ℤ) : ℚ) := by norm_num
      rw [this, pythonRound_intCast]
    · right
      rw [hρ, hmin, hhc]
      have : ((1080 : ℚ)) = ((1080 : ℤ) : ℚ) := by norm_num
      rw [this, pythonRound_intCast]
  have haW := abs_pythonRound_sub ((w : ℚ) * ρ)
  have haH := abs_pythonRound_sub ((h : ℚ) * ρ)
  rw [abs_le] at haW haH
  have haspect : |2 * (pythonRound ((w : ℚ) * ρ) * h -
      pythonRound ((h : ℚ) * ρ) * w)| ≤ w + h := by
    have hq : |2 * ((pythonRound ((w : ℚ) * ρ) : ℚ) * (h : ℚ) -
        (pythonRound ((h : ℚ) * ρ) : ℚ) * (w : ℚ))| ≤ (w : ℚ) + (h : ℚ) := by
      rw [abs_le]
      constructor <;> nlinarith [haW.1, haW.2, haH.1, haH.2, hw0, hh0]
    exact_mod_cast hq
  rw [hfit]
  exact ⟨hW, hH, hone, haspect⟩

/-- C2 witness: the amended claim at the 100×50 source, stored at 1080×540. -/
theorem loadImageStoredSize_fits_ceiling_witness :
    1 ≤ (100 : ℤ) ∧ 1 ≤ (50 : ℤ) ∧
    ((loadImageStoredSize (100, 50) MAX_TEXTURE_SIZE).1 ≤ 1080 ∧
     (loadImageStoredSize (100, 50) MAX_TEXTURE_SIZE).2 ≤ 1080 ∧
     ((loadImageStoredSize (100, 50) MAX_TEXTURE_SIZE).1 = 1080 ∨
       (loadImageStoredSize (100, 50) MAX_TEXTURE_SIZE).2 = 1080) ∧
     |2 * ((loadImageStoredSize (100, 50) MAX_TEXTURE_SIZE).1 * 50 -
           (loadImageStoredSize (100, 50) MAX_TEXTURE_SIZE).2 * 100)| ≤ 100 + 50) :=
  ⟨by decide, by decide, loadImageStoredSize_fits_ceiling 100 50 (by decide) (by decide)⟩

/-! Resync lemmas: the load/evict primitives. -/

/-- Membership after `loadToCache`. -/
theorem mem_loadToCache (st : List ℕ × List ℕ) (img : TextureModel) (t : ℕ) :
    t ∈ (loadToCache st img).1 ↔ t ∈ st.1 ∨ t = img.tag := by
  unfold loadToCache
  split
  · rename_i hmem
    constructor
    · exact Or.inl
    · rintro (h | rfl)
      · exact h
      · exact hmem
  · simp [List.mem_append]

/-- `loadToCache` is the identity when the tag is already resident. -/
theorem loadToCache_noop (st : List ℕ × List ℕ) (img : TextureModel)
    (h : img.tag ∈ st.1) : loadToCache st img = st := by
  unfold loadToCache
  rw [if_pos h]

/-- `loadToCache` keeps the resident list duplicate-free. -/
theorem loadToCache_nodup (st : List ℕ × List ℕ) (img : TextureModel)
    (h : st.1.Nodup) : (loadToCache st img).1.Nodup := by
  unfold loadToCache
  split
  · exact h
  · rename_i hmem
    simp [List.nodup_append, h, hmem]

/-- Membership after `removeFromCache`, over a duplicate-free resident
list. -/
theorem mem_removeFromCache (st : List ℕ × List ℕ) (a t : ℕ)
    (hnd : st.1.Nodup) :
    t ∈ (removeFromCache st a).1 ↔ t ∈ st.1 ∧ t ≠ a := by
  unfold removeFromCache
  split
  · rename_i hmem
    rw [hnd.mem_erase_iff]
    tauto
  · rename_i hmem
    constructor
    · intro h
      exact ⟨h, fun heq => hmem (heq ▸ h)⟩
    · exact And.left

/-- `removeFromCache` is the identity when the tag is not resident. -/
theorem removeFromCache_noop (st : List ℕ × List ℕ) (a : ℕ) (h : a ∉ st.1) :
    removeFromCache st a = st := by
  unfold removeFromCache
  rw [if_neg h]

/-- `removeFromCache` keeps the resident list duplicate-free. -/
theorem removeFromCache_nodup (st : List ℕ × List ℕ) (a : ℕ)
    (h : st.1.Nodup) : (removeFromCache st a).1.Nodup := by
  unfold removeFromCache
  split
  · exact h.erase a
  · exact h

/-- Membership after one preload iteration. -/
theorem mem_preloadStep (images : List TextureModel) (pos i : ℤ)
    (acc : (List ℕ × List ℕ) × Option ℤ) (t : ℕ) :
    t ∈ (preloadStep images pos i acc).1.1 ↔
      t ∈ acc.1.1 ∨ (pos + i < (images.length : ℤ) ∧ t = tagAt images (pos + i)) ∨
        (0 ≤ pos - i ∧ t = tagAt images (pos - i)) := by
  unfold preloadStep
  by_cases h1 : pos + i < (images.length : ℤ) <;>
    by_cases h2 : 0 ≤ pos - i <;>
      simp [h1, h2, mem_loadToCache, tagAt] <;> tauto

/-- One preload iteration leaves the cache and its load trace unchanged when
both candidate tags are already resident. -/
theorem preloadStep_fst_noop (images : List TextureModel) (pos i : ℤ)
    (acc : (List ℕ × List ℕ) × Option ℤ)
    (hf : pos + i < (images.length : ℤ) → tagAt images (pos + i) ∈ acc.1.1)
    (hb : 0 ≤ pos - i → tagAt images (pos - i) ∈ acc.1.1) :
    (preloadStep images pos i acc).1 = acc.1 := by
  unfold preloadStep
  by_cases h1 : pos + i < (images.length : ℤ) <;>
    by_cases h2 : 0 ≤ pos - i <;>
      simp only [h1, h2, if_true, if_false, ite_true, ite_false]
  · rw [loadToCache_noop _ _ (hf h1), loadToCache_noop _ _ (hb h2)]
  · rw [loadToCache_noop _ _ (hf h1)]
  · rw [loadToCache_noop _ _ (hb h2)]

/-- The `firstLoadedIndex` update of one preload iteration. -/
theorem preloadStep_snd (images : List TextureModel) (pos i : ℤ)
    (acc : (List ℕ × List ℕ) × Option ℤ) :
    (preloadStep images pos i acc).2 =
      if 0 ≤ pos - i then some (pos - i) else acc.2 := by
  unfold preloadStep
  by_cases h1 : pos + i < (images.length : ℤ) <;>
    by_cases h2 : 0 ≤ pos - i <;> simp [h1, h2]

/-- One preload iteration keeps the resident list duplicate-free. -/
theorem preloadStep_nodup (images : List TextureModel) (pos i : ℤ)
    (acc : (List ℕ × List ℕ) × Option ℤ) (h : acc.1.1.Nodup) :
    (preloadStep images pos i acc).1.1.Nodup := by
  unfold preloadStep
  by_cases h1 : pos + i < (images.length : ℤ) <;>
    by_cases h2 : 0 ≤ pos - i <;>
      simp only [h1, h2, if_true, if_false, ite_true, ite_false] <;>
        first
          | exact loadToCache_nodup _ _ (loadToCache_nodup _ _ h)
          | exact loadToCache_nodup _ _ h
          | exact h

/-! Resync lemmas: the preload and eviction loops. -/

/-- Membership after the preload loop: the initial residents plus every tag
at `pos + j` (when in range) or `pos - j` (when non-negative) for a loop
variable `j` in `[i, i + fuel)`. -/
theorem mem_preloadFrom (images : List TextureModel) (pos i : ℤ) (fuel : ℕ)
    (acc : (List ℕ × List ℕ) × Option ℤ) (t : ℕ) :
    t ∈ (preloadFrom images pos i fuel acc).1.1 ↔
      t ∈ acc.1.1 ∨ ∃ j : ℤ, i ≤ j ∧ j < i + (fuel : ℤ) ∧
        ((pos + j < (images.length : ℤ) ∧ t = tagAt images (pos + j)) ∨
         (0 ≤ pos - j ∧ t = tagAt images (pos - j))) := by
  induction fuel generalizing i acc with
  | zero =>
    simp only [preloadFrom]
    constructor
    · exact Or.inl
    · rintro (h | ⟨j, hj1, hj2, _⟩)
      · exact h
      · exfalso
        push_cast at hj2
        omega
  | succ n ih =>
    simp only [preloadFrom]
    rw [ih, mem_preloadStep]
    constructor
    · rintro ((h | h | h) | ⟨j, hj1, hj2, hj⟩)
      · exact Or.inl h
      · exact Or.inr ⟨i, le_refl i, by push_cast; omega, Or.inl h⟩
      · exact Or.inr ⟨i, le_refl i, by push_cast; omega, Or.inr h⟩
      · refine Or.inr ⟨j, by omega, ?_, hj⟩
        push_cast
        push_cast at hj2
        omega
    · rintro (h | ⟨j, hj1, hj2, hj⟩)
      · exact Or.inl (Or.inl h)
      · by_cases hji : j = i
        · subst hji
          rcases hj with h | h
          · exact Or.inl (Or.inr (Or.inl h))
          · exact Or.inl (Or.inr (Or.inr h))
        · refine Or.inr ⟨j, by omega, ?_, hj⟩
          push_cast
          push_cast at hj2
          omega

/-- The preload loop's final `firstLoadedIndex`: the last backward index
visited, `pos - min (i + fuel - 1) pos`, defined whenever the loop runs at
least once with `i ≤ pos`. -/
theorem preloadFrom_snd (images : List TextureModel) (pos i : ℤ) (fuel : ℕ)
    (acc : (List ℕ × List ℕ) × Option ℤ) :
    (preloadFrom images pos i fuel acc).2 =
      if 1 ≤ fuel ∧ i ≤ pos then some (pos - min (i + (fuel : ℤ) - 1) pos)
      else acc.2 := by
  induction fuel generalizing i acc with
  | zero => simp [preloadFrom]
  | succ n ih =>
    simp only [preloadFrom]
    rw [ih, preloadStep_snd]
    split_ifs <;>
      first
        | rfl
        | (simp only [Option.some.injEq]; push_cast at *; omega)
        | (exfalso; omega)

/-- The preload loop keeps the resident list duplicate-free. -/
theorem preloadFrom_nodup (images : List TextureModel) (pos i : ℤ) (fuel : ℕ)
    (acc : (List ℕ × List ℕ) × Option ℤ) (h : acc.1.1.Nodup) :
    (preloadFrom images pos i fuel acc).1.1.Nodup := by
  induction fuel generalizing i acc with
  | zero => simpa [preloadFrom] using h
  | succ n ih =>
    simp only [preloadFrom]
    exact ih _ _ (preloadStep_nodup _ _ _ _ h)

/-- The preload loop leaves the cache and its load trace unchanged when every
candidate tag is already resident. -/
theorem preloadFrom_fst_noop (images : List TextureModel) (pos i : ℤ)
    (fuel : ℕ) (acc : (List ℕ × List ℕ) × Option ℤ)
    (h : ∀ j : ℤ, i ≤ j → j < i + (fuel : ℤ) →
      (pos + j < (images.length : ℤ) → tagAt images (pos + j) ∈ acc.1.1) ∧
      (0 ≤ pos - j → tagAt images (pos - j) ∈ acc.1.1)) :
    (preloadFrom images pos i fuel acc).1 = acc.1 := by
  induction fuel generalizing i acc with
  | zero => simp [preloadFrom]
  | succ n ih =>
    simp only [preloadFrom]
    have hi := h i (le_refl i) (by push_cast; omega)
    have hstep : (preloadStep images pos i acc).1 = acc.1 :=
      preloadStep_fst_noop images pos i acc hi.1 hi.2
    have hstep1 : (preloadStep images pos i acc).1.1 = acc.1.1 :=
      congrArg Prod.fst hstep
    calc (preloadFrom images pos (i + 1) n (preloadStep images pos i acc)).1
        = (preloadStep images pos i acc).1 := by
          refine ih (i + 1) _ ?_
          intro j hj1 hj2
          rw [hstep1]
          refine h j (by omega) ?_
          push_cast
          push_cast at hj2
          omega
      _ = acc.1 := hstep

/-- Membership after the eviction loop, over a duplicate-free resident list:
the initial residents whose tag is none of the visited `tagAt` values. -/
theorem mem_evictFrom (images : List TextureModel) (k : ℤ) (fuel : ℕ)
    (st : List ℕ × List ℕ) (t : ℕ) (hnd : st.1.Nodup) :
    t ∈ (evictFrom images k fuel st).1 ↔
      t ∈ st.1 ∧ ∀ j : ℤ, k ≤ j → j < k + (fuel : ℤ) → t ≠ tagAt images j := by
  induction fuel generalizing k st with
  | zero =>
    simp only [evictFrom]
    constructor
    · intro h
      refine ⟨h, ?_⟩
      intro j h1 h2
      exfalso
      push_cast at h2
      omega
    · exact And.left
  | succ n ih =>
    simp only [evictFrom]
    rw [ih _ _ (removeFromCache_nodup _ _ hnd), mem_removeFromCache _ _ _ hnd]
    constructor
    · rintro ⟨⟨h1, h2⟩, h3⟩
      refine ⟨h1, ?_⟩
      intro j hj1 hj2
      by_cases hk : j = k
      · subst hk
        exact h2
      · refine h3 j (by omega) ?_
        push_cast
        push_cast at hj2
        omega
    · rintro ⟨h1, h2⟩
      refine ⟨⟨h1, h2 k (le_refl k) (by push_cast; omega)⟩, ?_⟩
      intro j hj1 hj2
      refine h2 j (by omega) ?_
      push_cast
      push_cast at hj2
      omega

/-- The eviction loop keeps the resident list duplicate-free. -/
theorem evictFrom_nodup (images : List TextureModel) (k : ℤ) (fuel : ℕ)
    (st : List ℕ × List ℕ) (h : st.1.Nodup) :
    (evictFrom images k fuel st).1.Nodup := by
  induction fuel generalizing k st with
  | zero => simpa [evictFrom] using h
  | succ n ih =>
    simp only [evictFrom]
    exact ih _ _ (removeFromCache_nodup _ _ h)

/-- The eviction loop is the identity when none of the visited tags is
resident. -/
theorem evictFrom_noop (images : List TextureModel) (k : ℤ) (fuel : ℕ)
    (st : List ℕ × List ℕ)
    (h : ∀ j : ℤ, k ≤ j → j < k + (fuel : ℤ) → tagAt images j ∉ st.1) :
    evictFrom images k fuel st = st := by
  induction fuel generalizing k st with
  | zero => simp [evictFrom]
  | succ n ih =>
    simp only [evictFrom]
    rw [removeFromCache_noop _ _ (h k (le_refl k) (by push_cast; omega))]
    refine ih (k + 1) st ?_
    intro j h1 h2
    refine h j (by omega) ?_
    push_cast
    push_cast at h2
    omega

/-! Resync lemmas: the two phases of `_updateTextureCache` assembled. -/

/-- Membership after the current-image load of `_updateTextureCache`. -/
theorem afterCur_mem (images : List TextureModel) (pos : ℤ) (cache : List ℕ)
    (u : ℕ) :
    u ∈ (if pos < (images.length : ℤ) then
          loadToCache (cache, []) (imgAt images pos) else (cache, [])).1 ↔
      (u ∈ cache ∨ (pos < (images.length : ℤ) ∧ u = tagAt images pos)) := by
  by_cases hlt : pos < (images.length : ℤ)
  · rw [if_pos hlt, mem_loadToCache]
    constructor
    · rintro (h | h)
      · exact Or.inl h
      · exact Or.inr ⟨hlt, h⟩
    · rintro (h | ⟨-, h⟩)
      · exact Or.inl h
      · exact Or.inr h
  · rw [if_neg hlt]
    constructor
    · exact Or.inl
    · rintro (h | ⟨hcon, -⟩)
      · exact h
      · exact absurd hcon hlt

/-- The current-image load keeps the resident list duplicate-free. -/
theorem afterCur_nodup (images : List TextureModel) (pos : ℤ)
    (cache : List ℕ) (hc : cache.Nodup) :
    (if pos < (images.length : ℤ) then
      loadToCache (cache, []) (imgAt images pos) else (cache, [])).1.Nodup := by
  split
  · exact loadToCache_nodup _ _ hc
  · exact hc

/-- Membership after the whole load phase of `_updateTextureCache` (current
image plus preload loop): the prior residents plus exactly the tags at queue
indices in the window `[max 0 (pos - r), min (len - 1) (pos + r)]`. -/
theorem loadPhase_mem (images : List TextureModel) (pos r : ℤ)
    (cache : List ℕ) (hr : 0 ≤ r) (h0 : 0 ≤ pos)
    (hl : pos ≤ (images.length : ℤ)) (u : ℕ) :
    u ∈ (preloadFrom images pos 1 r.toNat
          ((if pos < (images.length : ℤ) then
             loadToCache (cache, []) (imgAt images pos) else (cache, [])),
           none)).1.1 ↔
      (u ∈ cache ∨ ∃ k : ℤ, max 0 (pos - r) ≤ k ∧
        k ≤ min ((images.length : ℤ) - 1) (pos + r) ∧ u = tagAt images k) := by
  rw [mem_preloadFrom]
  have hrn : ((r.toNat : ℤ)) = r := Int.toNat_of_nonneg hr
  constructor
  · rintro (hin | ⟨j, hj1, hj2, hj⟩)
    · rcases (afterCur_mem images pos cache u).mp hin with h | ⟨hlt, heq⟩
      · exact Or.inl h
      · exact Or.inr ⟨pos, by omega, by omega, heq⟩
    · rcases hj with ⟨hlt, heq⟩ | ⟨hge, heq⟩
      · exact Or.inr ⟨pos + j, by omega, by omega, heq⟩
      · exact Or.inr ⟨pos - j, by omega, by omega, heq⟩
  · rintro (h | ⟨k, hk1, hk2, heq⟩)
    · exact Or.inl ((afterCur_mem images pos cache u).mpr (Or.inl h))
    · rcases lt_trichotomy k pos with hlt | heqk | hgt
      · refine Or.inr ⟨pos - k, by omega, by omega, Or.inr ⟨by omega, ?_⟩⟩
        rw [heq]
        congr 1
        omega
      · refine Or.inl ((afterCur_mem images pos cache u).mpr (Or.inr ⟨by omega, ?_⟩))
        rw [heq, heqk]
      · refine Or.inr ⟨k - pos, by omega, by omega, Or.inl ⟨by omega, ?_⟩⟩
        rw [heq]
        congr 1
        omega

/-- The load phase keeps the resident list duplicate-free. -/
theorem loadPhase_nodup (images : List TextureModel) (pos r : ℤ)
    (cache : List ℕ) (hc : cache.Nodup) :
    (preloadFrom images pos 1 r.toNat
      ((if pos < (images.length : ℤ) then
         loadToCache (cache, []) (imgAt images pos) else (cache, [])),
       none)).1.1.Nodup :=
  preloadFrom_nodup _ _ _ _ _ (afterCur_nodup images pos cache hc)

/-- The `firstLoadedIndex` computed by the load phase: `max (pos - r) 0`,
defined exactly when the preload loop runs (`r ≥ 1`) and visits a backward
index (`pos ≥ 1`). -/
theorem loadPhase_fLI (images : List TextureModel) (pos r : ℤ)
    (acc : (List ℕ × List ℕ) × Option ℤ) (hr : 0 ≤ r) (hacc : acc.2 = none) :
    (preloadFrom images pos 1 r.toNat acc).2 =
      if 1 ≤ r ∧ 1 ≤ pos then some (max (pos - r) 0) else none := by
  rw [preloadFrom_snd, hacc]
  have hrn : ((r.toNat : ℤ)) = r := Int.toNat_of_nonneg hr
  split_ifs <;>
    first
      | rfl
      | (simp only [Option.some.injEq]; omega)
      | (exfalso; omega)

/-- `_updateTextureCache` when the eviction pass runs (`r ≥ 1`, `pos ≥ 1`,
and `firstLoadedIndex = max (pos - r) 0` positive): the load phase followed
by the eviction loop over the prefix `[0, firstLoadedIndex)`. -/
theorem updateTextureCache_eq_evict (images : List TextureModel) (pos r : ℤ)
    (cache : List ℕ) (hr : 0 ≤ r) (h1 : 1 ≤ r) (h2 : 1 ≤ pos)
    (hfli : 0 < max (pos - r) 0) :
    updateTextureCache images pos r cache =
      ((evictFrom images 0 (max (pos - r) 0).toNat
          ((preloadFrom images pos 1 r.toNat
            ((if pos < (images.length : ℤ) then
                loadToCache (cache, []) (imgAt images pos) else (cache, [])),
             none)).1.1, [])).1,
       (preloadFrom images pos 1 r.toNat
            ((if pos < (images.length : ℤ) then
                loadToCache (cache, []) (imgAt images pos) else (cache, [])),
             none)).1.2,
       (evictFrom images 0 (max (pos - r) 0).toNat
          ((preloadFrom images pos 1 r.toNat
            ((if pos < (images.length : ℤ) then
                loadToCache (cache, []) (imgAt images pos) else (cache, [])),
             none)).1.1, [])).2) := by
  simp only [updateTextureCache]
  rw [loadPhase_fLI images pos r _ hr rfl, if_pos (And.intro h1 h2)]
  simp only [hfli, if_true, ite_true]

/-- `_updateTextureCache` when the eviction pass does not run (the loop never
visited a backward index, or `firstLoadedIndex = 0`): just the load phase,
with an empty eviction trace. -/
theorem updateTextureCache_eq_noevict (images : List TextureModel) (pos r : ℤ)
    (cache : List ℕ) (hr : 0 ≤ r)
    (hOr : ¬(1 ≤ r ∧ 1 ≤ pos) ∨ ¬(0 < max (pos - r) 0)) :
    updateTextureCache images pos r cache =
      ((preloadFrom images pos 1 r.toNat
          ((if pos < (images.length : ℤ) then
              loadToCache (cache, []) (imgAt images pos) else (cache, [])),
           none)).1.1,
       (preloadFrom images pos 1 r.toNat
          ((if pos < (images.length : ℤ) then
              loadToCache (cache, []) (imgAt images pos) else (cache, [])),
           none)).1.2,
       ([] : List ℕ)) := by
  simp only [updateTextureCache]
  rw [loadPhase_fLI images pos r _ hr rfl]
  by_cases hcond : 1 ≤ r ∧ 1 ≤ pos
  · rw [if_pos hcond]
    have hfli : ¬(0 < max (pos - r) 0) := by
      rcases hOr with h | h
      · exact absurd hcond h
      · exact h
    simp only [hfli, if_false, ite_false]
  · rw [if_neg hcond]

/-- Auxiliary: full membership characterisation of one `_updateTextureCache`
pass over a duplicate-free resident list. A tag is resident afterwards iff it
was resident before or sits at a queue index in the loaded window
`[max 0 (pos - r), min (len - 1) (pos + r)]`, and it is not one of the tags
at the evicted prefix indices `[0, max 0 (pos - r))` — a prefix that is only
evicted when `r ≥ 1` (the eviction loop is driven by `firstLoadedIndex`,
which only backward preloading sets). The page size plays no role. -/
theorem mem_updateTextureCache (images : List TextureModel) (pos r : ℤ)
    (cache : List ℕ) (t : ℕ) (hc : cache.Nodup) (hr : 0 ≤ r)
    (h0 : 0 ≤ pos) (hl : pos ≤ (images.length : ℤ)) :
    t ∈ (updateTextureCache images pos r cache).1 ↔
      ((t ∈ cache ∨ ∃ k : ℤ, max 0 (pos - r) ≤ k ∧
          k ≤ min ((images.length : ℤ) - 1) (pos + r) ∧ t = tagAt images k) ∧
        ¬(1 ≤ r ∧ ∃ k : ℤ, 0 ≤ k ∧ k < max 0 (pos - r) ∧ t = tagAt images k)) := by
  by_cases hcond : 1 ≤ r ∧ 1 ≤ pos
  · by_cases hfli : 0 < max (pos - r) 0
    · rw [updateTextureCache_eq_evict images pos r cache hr hcond.1 hcond.2 hfli]
      simp only
      rw [mem_evictFrom images 0 (max (pos - r) 0).toNat
        ((preloadFrom images pos 1 r.toNat
          ((if pos < (images.length : ℤ) then
              loadToCache (cache, []) (imgAt images pos) else (cache, [])),
           none)).1.1, []) t (loadPhase_nodup images pos r cache hc)]
      rw [loadPhase_mem images pos r cache hr h0 hl]
      constructor
      · rintro ⟨hA, hB⟩
        refine ⟨hA, ?_⟩
        rintro ⟨-, k, hk0, hk1, hkeq⟩
        exact hB k (by omega) (by omega) hkeq
      · rintro ⟨hA, hB⟩
        refine ⟨hA, ?_⟩
        intro j hj0 hjlt heq
        exact hB ⟨by omega, j, by omega, by omega, heq⟩
    · rw [updateTextureCache_eq_noevict images pos r cache hr (Or.inr hfli)]
      simp only
      rw [loadPhase_mem images pos r cache hr h0 hl]
      constructor
      · intro h
        refine ⟨h, ?_⟩
        rintro ⟨-, k, hk0, hk1, -⟩
        omega
      · exact And.left
  · rw [updateTextureCache_eq_noevict images pos r cache hr (Or.inl hcond)]
    simp only
    rw [loadPhase_mem images pos r cache hr h0 hl]
    constructor
    · intro h
      refine ⟨h, ?_⟩
      rintro ⟨hr1, k, hk0, hk1, -⟩
      rcases not_and_or.mp hcond with h' | h' <;> omega
    · exact And.left

/-- The result of `_updateTextureCache` is duplicate-free when the input
resident list is. -/
theorem updateTextureCache_nodup (images : List TextureModel) (pos r : ℤ)
    (cache : List ℕ) (hc : cache.Nodup) (hr : 0 ≤ r) :
    (updateTextureCache images pos r cache).1.Nodup := by
  by_cases hcond : 1 ≤ r ∧ 1 ≤ pos
  · by_cases hfli : 0 < max (pos - r) 0
    · rw [updateTextureCache_eq_evict images pos r cache hr hcond.1 hcond.2 hfli]
      exact evictFrom_nodup _ _ _ _ (loadPhase_nodup images pos r cache hc)
    · rw [updateTextureCache_eq_noevict images pos r cache hr (Or.inr hfli)]
      exact loadPhase_nodup images pos r cache hc
  · rw [updateTextureCache_eq_noevict images pos r cache hr (Or.inl hcond)]
    exact loadPhase_nodup images pos r cache hc

/-- With distinct queue ids, `tagAt` is injective on in-range indices. -/
theorem tagAt_inj (images : List TextureModel)
    (hnd : (images.map TextureModel.tag).Nodup) (j k : ℤ)
    (hj0 : 0 ≤ j) (hj : j < (images.length : ℤ))
    (hk0 : 0 ≤ k) (hk : k < (images.length : ℤ))
    (heq : tagAt images j = tagAt images k) : j = k := by
  have hjn : j.toNat < images.length := by omega
  have hkn : k.toNat < images.length := by omega
  have hjm : j.toNat < (images.map TextureModel.tag).length := by simpa using hjn
  have hkm : k.toNat < (images.map TextureModel.tag).length := by simpa using hkn
  have hj1 : tagAt images j = (images.map TextureModel.tag).get ⟨j.toNat, hjm⟩ := by
    rw [tagAt, imgAt, List.getD_eq_get images _ hjn]
    simp
  have hk1 : tagAt images k = (images.map TextureModel.tag).get ⟨k.toNat, hkm⟩ := by
    rw [tagAt, imgAt, List.getD_eq_get images _ hkn]
    simp
  rw [hj1, hk1] at heq
  have h2 := hnd.get_inj_iff.mp heq
  have h3 : j.toNat = k.toNat := congrArg Fin.val h2
  omega

/-- At position 0 `_updateTextureCache` evicts nothing (the backward loop
never runs, so `firstLoadedIndex` stays `None`): every prior resident
survives, whatever the queue and radius. -/
theorem cache_subset_updateTextureCache_zero (images : List TextureModel)
    (r : ℤ) (cache : List ℕ) (t : ℕ) (ht : t ∈ cache) :
    t ∈ (updateTextureCache images 0 r cache).1 := by
  have hfln : (preloadFrom images 0 1 r.toNat
      ((if (0 : ℤ) < (images.length : ℤ) then
         loadToCache (cache, []) (imgAt images 0) else (cache, [])), none)).2
      = none := by
    rw [preloadFrom_snd, if_neg]
    rintro ⟨-, hcon⟩
    omega
  simp only [updateTextureCache]
  rw [hfln]
  exact (mem_preloadFrom images 0 1 r.toNat _ t).mpr
    (Or.inl ((afterCur_mem images 0 cache t).mpr (Or.inl ht)))

/-- C1 (amended): after one `_updateTextureCache` pass at a position
`0 ≤ pos ≤ len` with preload radius `r ≥ 0`, over a queue and a
duplicate-free resident list, a tag is resident exactly when (it was already
resident, or it is the id at an index in the loaded window
`[max 0 (pos - r), min (len - 1) (pos + r)]`) and it is not the id at an
index in the evicted prefix `[0, max 0 (pos - r))` — evicted only when
`r ≥ 1`. The page size plays no role, and previously resident ids past the
window's upper edge are never evicted. -/
theorem resync_resident_characterisation (images : List TextureModel)
    (pos r : ℤ) (cache : List ℕ) (t : ℕ) (hc : cache.Nodup) (hr : 0 ≤ r)
    (h0 : 0 ≤ pos) (hl : pos ≤ (images.length : ℤ)) :
    t ∈ (updateTextureCache images pos r cache).1 ↔
      ((t ∈ cache ∨ ∃ k : ℤ, max 0 (pos - r) ≤ k ∧
          k ≤ min ((images.length : ℤ) - 1) (pos + r) ∧ t = tagAt images k) ∧
        ¬(1 ≤ r ∧ ∃ k : ℤ, 0 ≤ k ∧ k < max 0 (pos - r) ∧ t = tagAt images k)) :=
  mem_updateTextureCache images pos r cache t hc hr h0 hl

/-- C1 witness: the characterisation at the concrete queue `c1Images`
(tags 10, 20, 30, 40), position 2, radius 1, prior resident list `[10]`,
tag 10: the id at evicted prefix index 0 is indeed no longer resident. -/
theorem resync_resident_characterisation_witness :
    ([10] : List ℕ).Nodup ∧ (0 : ℤ) ≤ 1 ∧ (0 : ℤ) ≤ 2 ∧
      (2 : ℤ) ≤ (c1Images.length : ℤ) ∧
    (10 ∈ (updateTextureCache c1Images 2 1 [10]).1 ↔
      ((10 ∈ ([10] : List ℕ) ∨ ∃ k : ℤ, max 0 (2 - 1) ≤ k ∧
          k ≤ min ((c1Images.length : ℤ) - 1) (2 + 1) ∧ 10 = tagAt c1Images k) ∧
        ¬(1 ≤ (1 : ℤ) ∧ ∃ k : ℤ, 0 ≤ k ∧ k < max 0 (2 - 1) ∧
            10 = tagAt c1Images k))) :=
  ⟨by decide, by decide, by decide, by decide,
   resync_resident_characterisation c1Images 2 1 [10] 10
     (by decide) (by decide) (by decide) (by decide)⟩

/-- C1 counterexample: queue of tags 10, 20, 30, 40, page size 2, radius 1,
position 0, prior resident `[40]`. The claimed resident range
`[max(0, 0-1), min(len, 0+2-1+1)] = [0, 2]` is `{10, 20, 30}`, but after the
resync tag 30 is not resident (the loader ignores the page size) while tag
40, outside every claimed range, is still resident (nothing past the window
is evicted). -/
theorem resync_window_counterexample :
    (updateTextureCache c1Images 0 1 [40]).1 = [40, 10, 20] ∧
    (30 ∉ (updateTextureCache c1Images 0 1 [40]).1) ∧
    (40 ∈ (updateTextureCache c1Images 0 1 [40]).1) := by
  decide

/-- C5: resync is idempotent — running `_updateTextureCache` a second time
with the same position and radius performs no loads and no evictions and
leaves the resident list unchanged. Stated for queues with distinct ids (the
spec requires id uniqueness), duplicate-free resident lists, radius ≥ 0 and
in-range positions. -/
theorem updateTextureCache_idempotent (images : List TextureModel) (pos r : ℤ)
    (cache : List ℕ) (hnd : (images.map TextureModel.tag).Nodup)
    (hc : cache.Nodup) (hr : 0 ≤ r) (h0 : 0 ≤ pos)
    (hl : pos ≤ (images.length : ℤ)) :
    updateTextureCache images pos r ((updateTextureCache images pos r cache).1)
      = ((updateTextureCache images pos r cache).1, [], []) := by
  have hwin : ∀ k : ℤ, max 0 (pos - r) ≤ k →
      k ≤ min ((images.length : ℤ) - 1) (pos + r) →
      tagAt images k ∈ (updateTextureCache images pos r cache).1 := by
    intro k hk1 hk2
    rw [mem_updateTextureCache images pos r cache _ hc hr h0 hl]
    refine ⟨Or.inr ⟨k, hk1, hk2, rfl⟩, ?_⟩
    rintro ⟨hr1, k', hk'0, hk'1, heq⟩
    have hkk : k' = k :=
      tagAt_inj images hnd k' k (by omega) (by omega) (by omega) (by omega)
        heq.symm
    omega
  have hev : ∀ k : ℤ, 0 ≤ k → k < max 0 (pos - r) → 1 ≤ r →
      tagAt images k ∉ (updateTextureCache images pos r cache).1 := by
    intro k hk0 hk1 hr1 hmem
    rw [mem_updateTextureCache images pos r cache _ hc hr h0 hl] at hmem
    exact hmem.2 ⟨hr1, k, hk0, hk1, rfl⟩
  have hac : (if pos < (images.length : ℤ) then
      loadToCache ((updateTextureCache images pos r cache).1, [])
        (imgAt images pos)
      else ((updateTextureCache images pos r cache).1, [])) =
      ((updateTextureCache images pos r cache).1, []) := by
    split
    · rename_i hlt
      exact loadToCache_noop _ _ (hwin pos (by omega) (by omega))
    · rfl
  have hpre : (preloadFrom images pos 1 r.toNat
      (((updateTextureCache images pos r cache).1, []), none)).1 =
      ((updateTextureCache images pos r cache).1, []) := by
    refine preloadFrom_fst_noop images pos 1 r.toNat _ ?_
    intro j hj1 hj2
    constructor
    · intro hlt
      exact hwin (pos + j) (by omega) (by omega)
    · intro hge
      exact hwin (pos - j) (by omega) (by omega)
  by_cases hcond : 1 ≤ r ∧ 1 ≤ pos
  · by_cases hfli : 0 < max (pos - r) 0
    · rw [updateTextureCache_eq_evict images pos r
        ((updateTextureCache images pos r cache).1) hr hcond.1 hcond.2 hfli]
      rw [hac, hpre]
      have hevloop : evictFrom images 0 (max (pos - r) 0).toNat
          ((((updateTextureCache images pos r cache).1, ([] : List ℕ)) :
              List ℕ × List ℕ).1, ([] : List ℕ)) =
          ((updateTextureCache images pos r cache).1, []) := by
        refine evictFrom_noop images 0 (max (pos - r) 0).toNat _ ?_
        intro j hj0 hjlt
        exact hev j (by omega) (by omega) hcond.1
      rw [hevloop]
    · rw [updateTextureCache_eq_noevict images pos r
        ((updateTextureCache images pos r cache).1) hr (Or.inr hfli)]
      rw [hac, hpre]
  · rw [updateTextureCache_eq_noevict images pos r
      ((updateTextureCache images pos r cache).1) hr (Or.inl hcond)]
    rw [hac, hpre]

/-- C5 witness: idempotence at the concrete queue `c1Images`, position 2,
radius 1, prior resident list `[10]`. -/
theorem updateTextureCache_idempotent_witness :
    (c1Images.map TextureModel.tag).Nodup ∧ ([10] : List ℕ).Nodup ∧
    updateTextureCache c1Images 2 1 ((updateTextureCache c1Images 2 1 [10]).1)
      = ((updateTextureCache c1Images 2 1 [10]).1, [], []) :=
  ⟨by decide, by decide,
   updateTextureCache_idempotent c1Images 2 1 [10]
     (by decide) (by decide) (by decide) (by decide) (by decide)⟩

/-- C6 (amended): replacing the queue (`setImageQueue`) and restarting
(`startQueue`) does not invalidate the cache: the restart resyncs at position
0 where no eviction occurs, so every entry resident before — in particular
every entry keyed by an old-queue id, disjoint or not — remains resident
alongside the new queue's initial window. -/
theorem replace_start_preserves_old_residents
    (st : CoreState) (imgs : List TextureModel) (cache : List ℕ) (t : ℕ)
    (hm : st.textureManager = some cache) (ht : t ∈ cache) :
    startQueue (setImageQueue st imgs) =
      Except.ok (startQueueState (setImageQueue st imgs) cache,
        presentCurrentImage (startQueueState (setImageQueue st imgs) cache)) ∧
    t ∈ (updateTextureCache imgs 0 st.preloadBuffer cache).1 := by
  constructor
  · simp only [startQueue, setImageQueue, startQueueState, hm]
  · exact cache_subset_updateTextureCache_zero imgs st.preloadBuffer cache t ht

/-- C6 witness: the old tag 1 is still resident after replacing `c6State`'s
queue by the disjoint `c6NewImages` and restarting. -/
theorem replace_start_preserves_old_residents_witness :
    c6State.textureManager = some [1] ∧ 1 ∈ ([1] : List ℕ) ∧
    (startQueue (setImageQueue c6State c6NewImages) =
      Except.ok (startQueueState (setImageQueue c6State c6NewImages) [1],
        presentCurrentImage (startQueueState (setImageQueue c6State c6NewImages) [1])) ∧
     1 ∈ (updateTextureCache c6NewImages 0 c6State.preloadBuffer [1]).1) :=
  ⟨rfl, by decide,
   replace_start_preserves_old_residents c6State c6NewImages [1] 1 rfl (by decide)⟩

end ImageSwipe
